import Mathlib

/-!
Shallow embedding of the CASE repository's core logic:
  - `src/case/jury.py`   : persona registry, evidence formatting, jury sampling,
                           vote extraction, tallying (`Jury.synthesize`)
  - `src/case/advocate.py` : `AdvocateAgent.retrieve`

External collaborators (the dspy language-model predictor, `random.sample`'s
randomness) are modelled as explicit oracle parameters: the predictor as a
function from persona name to its outcome, and the sampler's randomness as a
permutation of the persona-key list (`random.sample(pop, k)` returns `k`
distinct elements of `pop`; we model it as taking the first `k` elements of an
arbitrary permutation, and it raises ValueError when `k` is negative or
exceeds the population size, exactly as CPython does).

Machine reals (Python floats) are modelled with `ℚ`; `round(x, 2)` is modelled
as exact rational rounding half-to-even at two decimals.  Within `synthesize`
the rounded quantity is `win_count / len(votes)` with `len(votes) ≤ 5`, and no
such fraction is a two-decimal midpoint nor is its float image one, so the
rational model agrees with Python's float `round` on every reachable input.
Python `str.strip` / `str.upper` are modelled with `pyStrip` /
`Char.toUpper` (ASCII case mapping; all strings the program manipulates for
control flow are ASCII option letters).
-/

namespace Case

/-! ### Python JSON values and `json.loads` (used by `Jury.synthesize`) -/

/-- The result of a successful Python `json.loads`: null, booleans, numbers
(kept as their source lexeme, since only dict-ness matters for control flow),
strings, arrays and objects. -/
inductive Json where
  | null
  | bool (b : Bool)
  | num (lit : String)
  | str (s : String)
  | arr (elems : List Json)
  | obj (fields : List (String × Json))

/-- JSON whitespace skipping (space, tab, newline, carriage return), as in
Python's `json` module. -/
def skipWs : List Char → List Char
  | [] => []
  | c :: cs => if c = ' ' ∨ c = '\t' ∨ c = '\n' ∨ c = '\r' then skipWs cs else c :: cs

def isDigitC (c : Char) : Bool := '0' ≤ c && c ≤ '9'

/-- Value of one hexadecimal digit of a `\uXXXX` escape (0-9, a-f, A-F). -/
def hexVal (c : Char) : Option Nat :=
  let n := c.toNat
  if 48 ≤ n ∧ n ≤ 57 then some (n - 48)
  else if 97 ≤ n ∧ n ≤ 102 then some (n - 87)
  else if 65 ≤ n ∧ n ≤ 70 then some (n - 55)
  else none

/-- Body of a JSON string literal (after the opening quote), with escape
sequences; control characters are rejected as in strict-mode `json.loads`. -/
def parseStringBody : List Char → List Char → Option (String × List Char)
  | _, [] => none
  | acc, c :: rest =>
    if c = '"' then some (String.mk acc.reverse, rest)
    else if c = '\\' then
      match rest with
      | [] => none
      | e :: rest2 =>
        if e = '"' then parseStringBody ('"' :: acc) rest2
        else if e = '\\' then parseStringBody ('\\' :: acc) rest2
        else if e = '/' then parseStringBody ('/' :: acc) rest2
        else if e = 'b' then parseStringBody ('\x08' :: acc) rest2
        else if e = 'f' then parseStringBody ('\x0C' :: acc) rest2
        else if e = 'n' then parseStringBody ('\n' :: acc) rest2
        else if e = 'r' then parseStringBody ('\x0D' :: acc) rest2
        else if e = 't' then parseStringBody ('\t' :: acc) rest2
        else if e = 'u' then
          match rest2 with
          | h1 :: h2 :: h3 :: h4 :: rest3 =>
            match hexVal h1, hexVal h2, hexVal h3, hexVal h4 with
            | some a, some b, some c2, some d =>
              parseStringBody (Char.ofNat (((a * 16 + b) * 16 + c2) * 16 + d) :: acc) rest3
            | _, _, _, _ => none
          | _ => none
        else none
    else if c.toNat < 32 then none
    else parseStringBody (c :: acc) rest

/-- One-or-more decimal digits. -/
def parseDigits1 (cs : List Char) : Option (List Char × List Char) :=
  match cs.span isDigitC with
  | ([], _) => none
  | (ds, rest) => some (ds, rest)

def parseSignedDigits : List Char → Option (List Char × List Char)
  | '+' :: rest => (parseDigits1 rest).map (fun p => ('+' :: p.1, p.2))
  | '-' :: rest => (parseDigits1 rest).map (fun p => ('-' :: p.1, p.2))
  | cs => parseDigits1 cs

/-- Integer part of a JSON number: `0` or a nonzero digit followed by digits
(leading zeros are not absorbed, as in Python's JSON number grammar). -/
def parseIntPart : List Char → Option (List Char × List Char)
  | [] => none
  | c :: rest =>
    if c = '0' then some (['0'], rest)
    else if isDigitC c then
      match rest.span isDigitC with
      | (ds, rest2) => some (c :: ds, rest2)
    else none

def parseFracPart (cs : List Char) : List Char × List Char :=
  match cs with
  | '.' :: rest =>
    match parseDigits1 rest with
    | some (ds, r) => ('.' :: ds, r)
    | none => ([], cs)
  | _ => ([], cs)

def parseExpPart (cs : List Char) : List Char × List Char :=
  match cs with
  | c :: rest =>
    if c = 'e' ∨ c = 'E' then
      match parseSignedDigits rest with
      | some (ds, r) => (c :: ds, r)
      | none => ([], cs)
    else ([], cs)
  | [] => ([], [])

def parseNumber (cs : List Char) : Option (Json × List Char) :=
  let sgncs : List Char × List Char :=
    match cs with
    | '-' :: rest => (['-'], rest)
    | _ => ([], cs)
  match parseIntPart sgncs.2 with
  | none => none
  | some (ip, cs2) =>
    let fp := parseFracPart cs2
    let ep := parseExpPart fp.2
    some (Json.num (String.mk (sgncs.1 ++ ip ++ fp.1 ++ ep.1)), ep.2)

def expectLit : List Char → List Char → Option (List Char)
  | [], cs => some cs
  | _ :: _, [] => none
  | l :: ls, c :: cs => if c = l then expectLit ls cs else none

mutual

/-- Fuel-indexed JSON value parser (the fuel only bounds nesting recursion;
`json_loads` supplies enough fuel for any input of the given length).
Besides the RFC grammar, CPython's `json.loads` by default also accepts the
constants `NaN`, `Infinity` and `-Infinity` as float values; they are kept as
numbers whose lexeme is the Python `str()` of the resulting float (`nan`,
`inf`, `-inf`). -/
def parseValue : Nat → List Char → Option (Json × List Char)
  | 0, _ => none
  | fuel + 1, cs =>
    match skipWs cs with
    | [] => none
    | c :: rest =>
      if c = 'n' then (expectLit ['u', 'l', 'l'] rest).map (fun r => (Json.null, r))
      else if c = 't' then (expectLit ['r', 'u', 'e'] rest).map (fun r => (Json.bool true, r))
      else if c = 'f' then (expectLit ['a', 'l', 's', 'e'] rest).map (fun r => (Json.bool false, r))
      else if c = '"' then (parseStringBody [] rest).map (fun p => (Json.str p.1, p.2))
      else if c = '[' then
        match skipWs rest with
        | ']' :: rest2 => some (Json.arr [], rest2)
        | cs2 => (parseElems fuel cs2).map (fun p => (Json.arr p.1, p.2))
      else if c = '\x7b' then
        match skipWs rest with
        | '\x7d' :: rest2 => some (Json.obj [], rest2)
        | cs2 => (parseFields fuel cs2).map (fun p => (Json.obj p.1, p.2))
      else if c = 'N' then (expectLit ['a', 'N'] rest).map (fun r => (Json.num "nan", r))
      else if c = 'I' then
        (expectLit ['n', 'f', 'i', 'n', 'i', 't', 'y'] rest).map (fun r => (Json.num "inf", r))
      else if c = '-' then
        match rest with
        | 'I' :: rest2 =>
          (expectLit ['n', 'f', 'i', 'n', 'i', 't', 'y'] rest2).map
            (fun r => (Json.num "-inf", r))
        | _ => parseNumber (c :: rest)
      else if isDigitC c then parseNumber (c :: rest)
      else none

def parseElems : Nat → List Char → Option (List Json × List Char)
  | 0, _ => none
  | fuel + 1, cs =>
    match parseValue fuel cs with
    | none => none
    | some (v, rest) =>
      match skipWs rest with
      | ',' :: rest2 => (parseElems fuel rest2).map (fun p => (v :: p.1, p.2))
      | ']' :: rest2 => some ([v], rest2)
      | _ => none

def parseFields : Nat → List Char → Option (List (String × Json) × List Char)
  | 0, _ => none
  | fuel + 1, cs =>
    match skipWs cs with
    | '"' :: rest =>
      match parseStringBody [] rest with
      | none => none
      | some (k, rest2) =>
        match skipWs rest2 with
        | ':' :: rest3 =>
          match parseValue fuel rest3 with
          | none => none
          | some (v, rest4) =>
            match skipWs rest4 with
            | ',' :: rest5 => (parseFields fuel rest5).map (fun p => ((k, v) :: p.1, p.2))
            | '\x7d' :: rest5 => some ([(k, v)], rest5)
            | _ => none
        | _ => none
    | _ => none

end

/-- Python `json.loads` with its default arguments: parse a complete JSON
document (trailing whitespace only), accepting the non-standard `NaN`,
`Infinity` and `-Infinity` constants; `none` models `json.JSONDecodeError`. -/
def json_loads (s : String) : Option Json :=
  match parseValue (4 * (s.length + 1)) s.data with
  | some (v, rest) => if skipWs rest = [] then some v else none
  | none => none

mutual

/-- Approximation of Python `repr` on a value decoded from JSON (used only
where the source passes a non-string value through an f-string / `str`). -/
def pyRepr : Json → String
  | Json.null => "None"
  | Json.bool true => "True"
  | Json.bool false => "False"
  | Json.num lit => lit
  | Json.str s => "\x27" ++ s ++ "\x27"
  | Json.arr l => "[" ++ pyReprElems l ++ "]"
  | Json.obj f => "\x7b" ++ pyReprFields f ++ "\x7d"

def pyReprElems : List Json → String
  | [] => ""
  | [v] => pyRepr v
  | v :: rest => pyRepr v ++ ", " ++ pyReprElems rest

def pyReprFields : List (String × Json) → String
  | [] => ""
  | [(k, v)] => "\x27" ++ k ++ "\x27: " ++ pyRepr v
  | (k, v) :: rest => "\x27" ++ k ++ "\x27: " ++ pyRepr v ++ ", " ++ pyReprFields rest

end

/-- Python `str()` of a value decoded from JSON, as it appears inside an
f-string: a string is inserted verbatim, anything else via its repr. -/
def pyStr : Json → String
  | Json.str s => s
  | v => pyRepr v

/-- Python `dict.get` on an association list built by JSON object decoding
(later duplicate keys overwrite earlier ones, hence last-wins lookup). -/
def pyGetDict (fields : List (String × Json)) (k : String) : Option Json :=
  fields.foldl (fun acc p => if p.1 = k then some p.2 else acc) none

/-! ### Evidence elements and their formatting in `Jury.synthesize` -/

/-- One element of `evidence_list`: a raw string (dataset form), a Python dict
(advocate form, values modelled as JSON-decodable values), or any other
Python value (for which the source leaves `content` as the empty string). -/
inductive Evidence where
  | str (s : String)
  | dict (fields : List (String × Json))
  | other

/-- The `content` computed for one evidence element in `Jury.synthesize`
(jury.py lines 85-95).  A raw string is JSON-decoded: decoding failure keeps
the raw string, decoding to a dict reads `contents` with the raw string as
default, and decoding to any non-dict value hits `ev_json.get` and raises an
uncaught `AttributeError` (only `json.JSONDecodeError` is caught).  A dict
reads `contents`, then `text`, then `str(ev)`. -/
def formatDoc : Evidence → Except String String
  | Evidence.str s =>
    match json_loads s with
    | some (Json.obj fields) =>
      Except.ok (match pyGetDict fields "contents" with
        | some v => pyStr v
        | none => s)
    | some _ => Except.error "AttributeError: object has no attribute get"
    | none => Except.ok s
  | Evidence.dict fields =>
    Except.ok (match pyGetDict fields "contents" with
      | some v => pyStr v
      | none =>
        match pyGetDict fields "text" with
        | some v => pyStr v
        | none => pyRepr (Json.obj fields))
  | Evidence.other => Except.ok ""

def formatEvidenceAux : List Evidence → Nat → String → Except String String
  | [], _, acc => Except.ok acc
  | ev :: rest, i, acc =>
    match formatDoc ev with
    | Except.error e => Except.error e
    | Except.ok content =>
      formatEvidenceAux rest (i + 1) (acc ++ "[Document " ++ toString i ++ "] " ++ content ++ "\n")

/-- The `evidence_text` accumulation loop of `Jury.synthesize` (jury.py lines
83-97): starts from a fixed header and appends one labelled segment per
element, numbering from 1, in input order. -/
def formatEvidenceList (l : List Evidence) : Except String String :=
  formatEvidenceAux l 1 "\n Evidence - "

/-! ### The persona registry and jury selection -/

/-- `LEGAL_PERSONAS` (jury.py lines 17-44): the fixed registry of exactly five
personas, name to instruction text (adjacent Python string literals joined). -/
def LEGAL_PERSONAS : List (String × String) :=
  [("The Strict Textualist",
    "You are a Strict Textualist following the motto that the text is the law. " ++
    "Analyze provided evidence only. Do not use outside knowledge. " ++
    "If evidence does not explicitly state the answer, reject the option. " ++
    "Catch \x27hallucinations\x27 where the model invents rules not found in text."),
   ("The Devil\x27s Advocate",
    "You are a Devil\x27s Advocate. Your goal is to find loopholes in the argument. " ++
    "Look for exceptions, loopholes, or missing conditions in evidence. " ++
    "Be highly skeptical. If an answer looks too simple, check for missing conditions."),
   ("The Equity Advocate",
    "You are an Equity Advocate. You view law as a tool for fairness. " ++
    "In housing/tort cases, consider the vulnerable party for e.g., the tenant. " ++
    "Interpret ambiguities to prevent unjust outcomes for the vulnerable party."),
   ("The Legal Realist",
    "You are a Legal Realist (Pragmatist). You care about practical consequences. " ++
    "If literal text leads to absurd results, reject it. " ++
    "Choose the option that represents a workable, sensible application of rules."),
   ("The Precedent Loyalist",
    "You are a Precedent Loyalist. You care about consistency. " ++
    "Compare facts in \x27Question\x27 strictly against facts in \x27Evidence\x27 (Case Law). " ++
    "If facts don\x27t match, the rule does not apply. Prevent false analogies.")]

/-- `available_keys = list(self.personas.keys())` (jury.py line 102). -/
def availableKeys : List String := LEGAL_PERSONAS.map Prod.fst

/-- `random.sample(population, k)` (jury.py line 104), with the randomness
supplied as a permutation `perm` of the population: CPython raises
`ValueError` unless `0 <= k <= len(population)`, and otherwise returns `k`
distinct elements, modelled as the first `k` entries of `perm`. -/
def random_sample (population : List String) (k : Int) (perm : List String) :
    Except String (List String) :=
  if k < 0 ∨ (population.length : Int) < k then
    Except.error "Sample larger than population or is negative"
  else Except.ok (perm.take k.toNat)

/-- `options_text` (jury.py line 99). -/
def optionsText (choices : List (String × String)) : String :=
  String.intercalate "\n" (choices.map (fun kv => kv.1 ++ ": " ++ kv.2))

/-! ### Vote extraction and the deliberation loop -/

/-- The whitespace stripped by Python `str.strip()` (ASCII part). -/
def isStripWs (c : Char) : Bool :=
  c = ' ' || c = '\t' || c = '\n' || c = '\x0D' || c = '\x0B' || c = '\x0C'

/-- Python `str.strip()` on the character list of a string: drop leading and
trailing whitespace. -/
def pyStrip (l : List Char) : List Char :=
  ((l.dropWhile isStripWs).reverse.dropWhile isStripWs).reverse

/-- `char in choices` for one character of the cleaned raw vote (jury.py
line 132): membership of the one-character string in the key set. -/
def isKeyChar (choices : List (String × String)) (c : Char) : Bool :=
  choices.any (fun kv => kv.1 == String.singleton c)

/-- The vote-cleaning heuristic of `Jury.synthesize` (jury.py lines 127-134):
`raw_vote = pred.vote.strip().upper()`, then the first character of
`raw_vote` that is a key of `choices` becomes the vote (upper-casing a string
and then iterating its characters is iterating the upper-cased characters). -/
def extractVote (rawVote : String) (choices : List (String × String)) : Option String :=
  (((pyStrip rawVote.data).map Char.toUpper).find? (isKeyChar choices)).map String.singleton

/-- Outcome of one dspy `ChainOfThought(ArbiterDecision)` invocation for one
persona: the `reasoning` and `vote` output fields, or a raised exception. -/
inductive CollabResult where
  | ok (reasoning : String) (vote : String)
  | exn
  deriving DecidableEq

def collabOkB : CollabResult → Bool
  | CollabResult.ok _ _ => true
  | CollabResult.exn => false

/-- One entry of `juror_deliberations` (jury.py lines 139-143). -/
structure Ballot where
  persona : String
  vote : Option String
  reasoning : String
  deriving DecidableEq

/-- The deliberation loop of `Jury.synthesize` (jury.py lines 115-146):
returns the `votes` and `logs` lists.  A persona whose collaborator raises
contributes to neither list; a persona whose raw vote contains no valid key
character contributes a log entry with `vote = None` but no vote. -/
def runJurors (choices : List (String × String)) (collab : String → CollabResult) :
    List String → List String × List Ballot
  | [] => ([], [])
  | name :: rest =>
    match collab name with
    | CollabResult.exn => runJurors choices collab rest
    | CollabResult.ok reasoning rawVote =>
      let cleanVote := extractVote rawVote choices
      let next := runJurors choices collab rest
      (match cleanVote with
       | some v => v :: next.1
       | none => next.1,
       ⟨name, cleanVote, reasoning⟩ :: next.2)

/-! ### Tallying: `Counter`, `most_common(1)` and `round(_, 2)` -/

/-- Insert one vote into a `collections.Counter` represented as an association
list whose key order is first-insertion order. -/
def counterInsert (l : List (String × Nat)) (v : String) : List (String × Nat) :=
  match l with
  | [] => [(v, 1)]
  | (k, n) :: rest => if k = v then (k, n + 1) :: rest else (k, n) :: counterInsert rest v

/-- `Counter(votes)` (jury.py line 157): keys in order of first occurrence. -/
def counter (votes : List String) : List (String × Nat) :=
  votes.foldl counterInsert []

def mostCommonFold : Option (String × Nat) → List (String × Nat) → Option (String × Nat)
  | acc, [] => acc
  | none, p :: rest => mostCommonFold (some p) rest
  | some q, p :: rest => mostCommonFold (if q.2 < p.2 then some p else some q) rest

/-- `vote_counts.most_common(1)[0]` (jury.py line 158): the entry with maximal
count; on ties the earliest-inserted entry (heapq.nlargest is equivalent to a
stable descending sort, so the first-inserted maximum wins). -/
def mostCommon1 (l : List (String × Nat)) : Option (String × Nat) :=
  mostCommonFold none l

/-- Floor of a rational (via floor division of numerator by denominator). -/
def ratFloor (q : ℚ) : Int := Int.fdiv q.num (q.den : Int)

/-- Python `round(x, 2)`: round to two decimal places, half to even. -/
def round2 (q : ℚ) : ℚ :=
  let n : ℚ := q * 100
  let f : Int := ratFloor n
  let r : ℚ := n - (f : ℚ)
  let rounded : Int :=
    if r < 1 / 2 then f
    else if 1 / 2 < r then f + 1
    else if f % 2 = 0 then f else f + 1
  (rounded : ℚ) / 100

/-- The verdict dictionary returned by `Jury.synthesize`. -/
structure Verdict where
  final_verdict : Option String
  confidence : ℚ
  vote_breakdown : List (String × Nat)
  juror_deliberations : List Ballot
  deriving DecidableEq

/-- The tally stage of `Jury.synthesize` (jury.py lines 148-166) applied to a
selected jury: run the deliberation loop, then either return the no-votes
verdict or the majority verdict.  The `none` branch of `most_common(1)[0]`
mirrors the `IndexError` an empty counter would raise; it is unreachable
because the counter of a nonempty vote list is nonempty. -/
def deliberateAndTally (choices : List (String × String)) (collab : String → CollabResult)
    (selected : List String) : Except String Verdict :=
  let results := runJurors choices collab selected
  if results.1.isEmpty then
    Except.ok ⟨none, 0, [], results.2⟩
  else
    match mostCommon1 (counter results.1) with
    | none => Except.error "IndexError: list index out of range"
    | some (winner, winCount) =>
      Except.ok ⟨some winner, round2 ((winCount : ℚ) / (results.1.length : ℚ)),
        counter results.1, results.2⟩

/-- `Jury.synthesize` (jury.py lines 76-166): format the evidence (which can
raise on a string element that JSON-decodes to a non-dict), format the
options, sample the jury (which raises for a negative requested size), run
the deliberation loop and tally. -/
def synthesize (question : String) (choices : List (String × String))
    (evidence_list : List Evidence) (num_arbiters : Int)
    (perm : List String) (collab : String → CollabResult) : Except String Verdict :=
  match formatEvidenceList evidence_list with
  | Except.error e => Except.error e
  | Except.ok _evidenceText =>
    let _options := optionsText choices
    match random_sample availableKeys (min num_arbiters (availableKeys.length : Int)) perm with
    | Except.error e => Except.error e
    | Except.ok selected => deliberateAndTally choices collab selected

/-! ### `AdvocateAgent.retrieve` (advocate.py lines 147-175) -/

/-- An element of the list returned by `AdvocateAgent.retrieve`. -/
structure EvidenceItem where
  text : String
  source : String
  score : ℚ
  deriving DecidableEq

/-- The `evidence` field of the ReAct agent's prediction: a single string
block, a list of passages, or any other value (converted via `str`). -/
inductive EvidenceText where
  | str (s : String)
  | list (l : List String)
  | other (pyText : String)

/-- Outcome of one ReAct agent invocation: a prediction or an exception. -/
inductive ReactResult where
  | ok (evidence : EvidenceText)
  | exn

/-- Python `l[:k]` for an arbitrary integer `k`: nonnegative `k` keeps the
first `k` elements, negative `k` drops the last `|k|` elements. -/
def pySliceTo {α : Type} (l : List α) (k : Int) : List α :=
  if 0 ≤ k then l.take k.toNat else l.take (l.length - (-k).toNat)

/-- Python `str.split` on a single newline separator, at the character-list
level. -/
def splitLinesAux : List Char → List Char → List (List Char)
  | acc, [] => [acc.reverse]
  | acc, c :: rest =>
    if c = '\n' then acc.reverse :: splitLinesAux [] rest else splitLinesAux (c :: acc) rest

/-- `[p for p in evidence_text.split(chr(10)) if p.strip()]` (advocate.py
line 165): split a string block on newlines, dropping the lines that are
empty or whitespace-only (`p.strip()` is falsy exactly on those). -/
def splitPassages (s : String) : List String :=
  ((splitLinesAux [] s.data).filter (fun p => p.any (fun c => !isStripWs c))).map String.mk

/-- The `passages` local of `retrieve` (advocate.py lines 163-169): a string
block is split on newlines, a list is used as is, anything else becomes a
single `str`-converted passage. -/
def passagesOf : EvidenceText → List String
  | EvidenceText.str s => splitPassages s
  | EvidenceText.list l => l
  | EvidenceText.other r => [r]

/-- `AdvocateAgent.retrieve` (advocate.py lines 147-175), with the optional
ReAct agent and its outcome as oracles: no agent gives `[]`; an agent
exception gives `[]`; otherwise the evidence is parsed into passages,
truncated to `k`, and each passage is wrapped with the fixed source tag and
score 1.0. -/
def retrieve (reactAgent : Option (String → ReactResult)) (hypothesis : String) (k : Int) :
    List EvidenceItem :=
  match reactAgent with
  | none => []
  | some agent =>
    match agent hypothesis with
    | ReactResult.exn => []
    | ReactResult.ok evidenceText =>
      (pySliceTo (passagesOf evidenceText) k).map (fun p => ⟨p, "dspy_react", 1⟩)

/-! ### Lemmas: `find?`, vote extraction, the deliberation loop -/

theorem find?_split {α : Type} (p : α → Bool) :
    ∀ (l : List α) (a : α), l.find? p = some a →
      ∃ l₁ l₂, l = l₁ ++ a :: l₂ ∧ (∀ x ∈ l₁, p x = false) ∧ p a = true := by
  intro l
  induction l with
  | nil => intro a h; exact absurd h (by simp)
  | cons x rest ih =>
    intro a h
    by_cases hp : p x = true
    · rw [List.find?_cons_of_pos _ hp] at h
      obtain rfl := Option.some.inj h
      exact ⟨[], rest, rfl, by intro y hy; exact absurd hy (List.not_mem_nil y), hp⟩
    · rw [List.find?_cons_of_neg _ hp] at h
      obtain ⟨l₁, l₂, rfl, h1, h2⟩ := ih a h
      refine ⟨x :: l₁, l₂, rfl, ?_, h2⟩
      intro y hy
      rcases List.mem_cons.mp hy with rfl | hy
      · simpa using hp
      · exact h1 y hy

theorem extractVote_eq_some (rawVote : String) (choices : List (String × String)) (v : String)
    (h : extractVote rawVote choices = some v) :
    ∃ c l₁ l₂, v = String.singleton c ∧
      (pyStrip rawVote.data).map Char.toUpper = l₁ ++ c :: l₂ ∧
      isKeyChar choices c = true ∧ ∀ x ∈ l₁, isKeyChar choices x = false := by
  unfold extractVote at h
  obtain ⟨c, hfind, hv⟩ := Option.map_eq_some'.mp h
  obtain ⟨l₁, l₂, heq, h1, h2⟩ := find?_split _ _ _ hfind
  exact ⟨c, l₁, l₂, hv.symm, heq, h2, h1⟩

theorem extractVote_eq_none (rawVote : String) (choices : List (String × String))
    (h : ∀ c ∈ (pyStrip rawVote.data).map Char.toUpper, isKeyChar choices c = false) :
    extractVote rawVote choices = none := by
  unfold extractVote
  rw [List.find?_eq_none.mpr (fun c hc => by simp [h c hc])]
  rfl

theorem isKeyChar_mem (choices : List (String × String)) (c : Char)
    (h : isKeyChar choices c = true) : String.singleton c ∈ choices.map Prod.fst := by
  unfold isKeyChar at h
  obtain ⟨kv, hkv, hbeq⟩ := List.any_eq_true.mp h
  exact List.mem_map.mpr ⟨kv, hkv, eq_of_beq hbeq⟩

theorem extractVote_mem_keys (rawVote : String) (choices : List (String × String)) (v : String)
    (h : extractVote rawVote choices = some v) : v ∈ choices.map Prod.fst := by
  obtain ⟨c, l₁, l₂, rfl, _, hkey, _⟩ := extractVote_eq_some _ _ _ h
  exact isKeyChar_mem _ _ hkey

theorem runJurors_nil (ch : List (String × String)) (cb : String → CollabResult) :
    runJurors ch cb [] = ([], []) := rfl

theorem runJurors_cons_exn (ch : List (String × String)) (cb : String → CollabResult)
    (name : String) (rest : List String) (h : cb name = CollabResult.exn) :
    runJurors ch cb (name :: rest) = runJurors ch cb rest := by
  simp [runJurors, h]

theorem runJurors_cons_ok (ch : List (String × String)) (cb : String → CollabResult)
    (name : String) (rest : List String) (r rv : String)
    (h : cb name = CollabResult.ok r rv) :
    runJurors ch cb (name :: rest) =
      ((match extractVote rv ch with
        | some v => v :: (runJurors ch cb rest).1
        | none => (runJurors ch cb rest).1),
       ⟨name, extractVote rv ch, r⟩ :: (runJurors ch cb rest).2) := by
  simp [runJurors, h]

/-- The `votes` list is exactly the non-`None` votes of the log, in order
(jury.py lines 136-143). -/
theorem runJurors_votes (ch : List (String × String)) (cb : String → CollabResult)
    (names : List String) :
    (runJurors ch cb names).1 = (runJurors ch cb names).2.filterMap Ballot.vote := by
  induction names with
  | nil => rfl
  | cons name rest ih =>
    cases h : cb name with
    | exn => rw [runJurors_cons_exn ch cb name rest h]; exact ih
    | ok r rv =>
      rw [runJurors_cons_ok ch cb name rest r rv h]
      cases hev : extractVote rv ch with
      | none => simpa using ih
      | some w => simpa using ih

/-- Every log entry comes from a persona whose collaborator call returned,
and records that persona's extracted vote and reasoning. -/
theorem runJurors_ballots_mem (ch : List (String × String)) (cb : String → CollabResult)
    (names : List String) (b : Ballot) (hb : b ∈ (runJurors ch cb names).2) :
    ∃ name r rv, name ∈ names ∧ cb name = CollabResult.ok r rv ∧
      b = ⟨name, extractVote rv ch, r⟩ := by
  induction names with
  | nil => simp [runJurors] at hb
  | cons name rest ih =>
    cases h : cb name with
    | exn =>
      rw [runJurors_cons_exn ch cb name rest h] at hb
      obtain ⟨n2, r2, rv2, hmem, hcb, hb2⟩ := ih hb
      exact ⟨n2, r2, rv2, List.mem_cons_of_mem _ hmem, hcb, hb2⟩
    | ok r rv =>
      rw [runJurors_cons_ok ch cb name rest r rv h] at hb
      rcases List.mem_cons.mp hb with rfl | hb
      · exact ⟨name, r, rv, List.mem_cons_self _ _, h, rfl⟩
      · obtain ⟨n2, r2, rv2, hmem, hcb, hb2⟩ := ih hb
        exact ⟨n2, r2, rv2, List.mem_cons_of_mem _ hmem, hcb, hb2⟩

/-- Every cast vote is a key of `choices` (jury.py lines 131-137). -/
theorem runJurors_votes_mem_keys (ch : List (String × String)) (cb : String → CollabResult)
    (names : List String) (v : String) (hv : v ∈ (runJurors ch cb names).1) :
    v ∈ ch.map Prod.fst := by
  induction names with
  | nil => simp [runJurors] at hv
  | cons name rest ih =>
    cases h : cb name with
    | exn => rw [runJurors_cons_exn ch cb name rest h] at hv; exact ih hv
    | ok r rv =>
      rw [runJurors_cons_ok ch cb name rest r rv h] at hv
      cases hev : extractVote rv ch with
      | none => rw [hev] at hv; exact ih hv
      | some w =>
        rw [hev] at hv
        rcases List.mem_cons.mp hv with rfl | hv
        · exact extractVote_mem_keys _ _ _ hev
        · exact ih hv

/-- Every cast vote is the result of a successful extraction from some raw
vote string. -/
theorem runJurors_votes_from_extract (ch : List (String × String)) (cb : String → CollabResult)
    (names : List String) (v : String) (hv : v ∈ (runJurors ch cb names).1) :
    ∃ rv, extractVote rv ch = some v := by
  induction names with
  | nil => simp [runJurors] at hv
  | cons name rest ih =>
    cases h : cb name with
    | exn => rw [runJurors_cons_exn ch cb name rest h] at hv; exact ih hv
    | ok r rv =>
      rw [runJurors_cons_ok ch cb name rest r rv h] at hv
      cases hev : extractVote rv ch with
      | none => rw [hev] at hv; exact ih hv
      | some w =>
        rw [hev] at hv
        rcases List.mem_cons.mp hv with rfl | hv
        · exact ⟨rv, hev⟩
        · exact ih hv

/-- When no raw vote can ever be extracted, no votes are cast. -/
theorem runJurors_votes_nil (ch : List (String × String)) (cb : String → CollabResult)
    (names : List String) (h : ∀ rv, extractVote rv ch = none) :
    (runJurors ch cb names).1 = [] := by
  induction names with
  | nil => rfl
  | cons name rest ih =>
    cases hc : cb name with
    | exn => rw [runJurors_cons_exn ch cb name rest hc]; exact ih
    | ok r rv =>
      rw [runJurors_cons_ok ch cb name rest r rv hc, h rv]
      exact ih

/-- Erasing the personas whose collaborator raised changes nothing: the
deliberation outcome is that of the surviving personas (jury.py 115-146). -/
theorem runJurors_filter (ch : List (String × String)) (cb : String → CollabResult)
    (names : List String) :
    runJurors ch cb names = runJurors ch cb (names.filter (fun n => collabOkB (cb n))) := by
  induction names with
  | nil => rfl
  | cons name rest ih =>
    cases h : cb name with
    | exn =>
      rw [runJurors_cons_exn ch cb name rest h, ih]
      congr 1
      simp [List.filter_cons, collabOkB, h]
    | ok r rv =>
      have hfil : (name :: rest).filter (fun n => collabOkB (cb n)) =
          name :: rest.filter (fun n => collabOkB (cb n)) := by
        simp [List.filter_cons, collabOkB, h]
      rw [hfil, runJurors_cons_ok ch cb name rest r rv h,
        runJurors_cons_ok ch cb name (rest.filter (fun n => collabOkB (cb n))) r rv h, ih]

/-! ### Lemmas: the tally (`Counter` and `most_common(1)`) -/

/-- Sum of the counts of a tally. -/
def sumCounts (l : List (String × Nat)) : Nat := (l.map Prod.snd).sum

/-- Key list of a vote list in order of first occurrence (the insertion order
of `Counter(votes)`, which is the ballot order of the first vote for each
key). -/
def firstOccs (votes : List String) : List String :=
  votes.foldl (fun acc v => if v ∈ acc then acc else acc ++ [v]) []

theorem sumCounts_counterInsert (l : List (String × Nat)) (v : String) :
    sumCounts (counterInsert l v) = sumCounts l + 1 := by
  induction l with
  | nil => rfl
  | cons p rest ih =>
    obtain ⟨k, n⟩ := p
    by_cases hk : k = v
    · simp [counterInsert, hk, sumCounts]
      omega
    · simp only [counterInsert, if_neg hk]
      simp only [sumCounts, List.map_cons, List.sum_cons] at ih ⊢
      omega

theorem sumCounts_foldl (votes : List String) :
    ∀ l, sumCounts (votes.foldl counterInsert l) = sumCounts l + votes.length := by
  induction votes with
  | nil => intro l; simp
  | cons v rest ih =>
    intro l
    simp only [List.foldl_cons, List.length_cons]
    rw [ih (counterInsert l v), sumCounts_counterInsert]
    omega

/-- The counts of `Counter(votes)` sum to the number of votes. -/
theorem sumCounts_counter (votes : List String) : sumCounts (counter votes) = votes.length := by
  unfold counter
  rw [sumCounts_foldl]
  simp [sumCounts]

theorem mem_counterInsert (l : List (String × Nat)) (v k : String) (n : Nat)
    (h : (k, n) ∈ counterInsert l v) : k = v ∨ ∃ m, (k, m) ∈ l := by
  induction l with
  | nil =>
    simp [counterInsert] at h
    exact Or.inl h.1
  | cons p rest ih =>
    obtain ⟨a, b⟩ := p
    by_cases ha : a = v
    · rw [counterInsert, if_pos ha] at h
      rcases List.mem_cons.mp h with heq | hmem
      · injection heq with h1 _
        exact Or.inl (h1.trans ha)
      · exact Or.inr ⟨n, List.mem_cons_of_mem _ hmem⟩
    · rw [counterInsert, if_neg ha] at h
      rcases List.mem_cons.mp h with heq | hmem
      · injection heq with h1 _
        exact Or.inr ⟨b, h1 ▸ List.mem_cons_self _ _⟩
      · rcases ih hmem with hkv | ⟨m, hm⟩
        · exact Or.inl hkv
        · exact Or.inr ⟨m, List.mem_cons_of_mem _ hm⟩

theorem mem_counter_foldl (votes : List String) :
    ∀ (l : List (String × Nat)) (k : String) (n : Nat),
      (k, n) ∈ votes.foldl counterInsert l → k ∈ votes ∨ ∃ m, (k, m) ∈ l := by
  induction votes with
  | nil => intro l k n h; exact Or.inr ⟨n, by simpa using h⟩
  | cons v rest ih =>
    intro l k n h
    simp only [List.foldl_cons] at h
    rcases ih (counterInsert l v) k n h with hmem | ⟨m, hm⟩
    · exact Or.inl (List.mem_cons_of_mem _ hmem)
    · rcases mem_counterInsert l v k m hm with rfl | ⟨m2, hm2⟩
      · exact Or.inl (List.mem_cons_self _ _)
      · exact Or.inr ⟨m2, hm2⟩

/-- Every key of `Counter(votes)` is one of the votes. -/
theorem mem_counter (votes : List String) (k : String) (n : Nat)
    (h : (k, n) ∈ counter votes) : k ∈ votes := by
  rcases mem_counter_foldl votes [] k n h with hmem | ⟨m, hm⟩
  · exact hmem
  · exact absurd hm (List.not_mem_nil _)

theorem counterInsert_ne_nil (l : List (String × Nat)) (v : String) :
    counterInsert l v ≠ [] := by
  cases l with
  | nil => simp [counterInsert]
  | cons p rest =>
    obtain ⟨a, b⟩ := p
    by_cases ha : a = v <;> simp [counterInsert, ha]

theorem counter_ne_nil (votes : List String) (h : votes ≠ []) : counter votes ≠ [] := by
  obtain ⟨v, rest, rfl⟩ := List.exists_cons_of_ne_nil h
  unfold counter
  simp only [List.foldl_cons]
  have : ∀ (vs : List String) (l : List (String × Nat)), l ≠ [] →
      vs.foldl counterInsert l ≠ [] := by
    intro vs
    induction vs with
    | nil => intro l hl; simpa using hl
    | cons w ws ih =>
      intro l hl
      simp only [List.foldl_cons]
      exact ih _ (counterInsert_ne_nil l w)
  exact this rest _ (counterInsert_ne_nil [] v)

theorem counterInsert_fst (l : List (String × Nat)) (v : String) :
    (counterInsert l v).map Prod.fst =
      if v ∈ l.map Prod.fst then l.map Prod.fst else l.map Prod.fst ++ [v] := by
  induction l with
  | nil => simp [counterInsert]
  | cons p rest ih =>
    obtain ⟨a, b⟩ := p
    by_cases ha : a = v
    · subst ha
      simp [counterInsert]
    · rw [counterInsert, if_neg ha]
      simp only [List.map_cons, ih]
      have hv : v ∈ a :: rest.map Prod.fst ↔ v ∈ rest.map Prod.fst := by
        constructor
        · intro h
          rcases List.mem_cons.mp h with rfl | h
          · exact absurd rfl ha
          · exact h
        · exact List.mem_cons_of_mem _
      by_cases hm : v ∈ rest.map Prod.fst
      · rw [if_pos hm, if_pos (hv.mpr hm)]
      · rw [if_neg hm, if_neg (fun hh => hm (hv.mp hh))]
        simp

theorem counter_fst_foldl (votes : List String) :
    ∀ l : List (String × Nat),
      (votes.foldl counterInsert l).map Prod.fst =
        votes.foldl (fun acc v => if v ∈ acc then acc else acc ++ [v]) (l.map Prod.fst) := by
  induction votes with
  | nil => intro l; rfl
  | cons v rest ih =>
    intro l
    simp only [List.foldl_cons]
    rw [ih (counterInsert l v), counterInsert_fst]

/-- The key order of `Counter(votes)` is the first-occurrence order of the
votes. -/
theorem counter_fst (votes : List String) :
    (counter votes).map Prod.fst = firstOccs votes := by
  unfold counter firstOccs
  rw [counter_fst_foldl]
  rfl

theorem mostCommonFold_spec (l : List (String × Nat)) :
    ∀ q : String × Nat, ∃ r, mostCommonFold (some q) l = some r ∧
      ((r = q ∧ ∀ p ∈ l, p.2 ≤ q.2) ∨
       (∃ l₁ l₂, l = l₁ ++ r :: l₂ ∧ q.2 < r.2 ∧
         (∀ p ∈ l₁, p.2 < r.2) ∧ (∀ p ∈ l₂, p.2 ≤ r.2))) := by
  induction l with
  | nil => intro q; exact ⟨q, rfl, Or.inl ⟨rfl, by simp⟩⟩
  | cons p rest ih =>
    intro q
    by_cases hq : q.2 < p.2
    · obtain ⟨r, hr, hcase⟩ := ih p
      refine ⟨r, ?_, ?_⟩
      · simp only [mostCommonFold, if_pos hq]
        exact hr
      · rcases hcase with ⟨rfl, hall⟩ | ⟨l₁, l₂, rfl, hlt, h1, h2⟩
        · exact Or.inr ⟨[], rest, rfl, hq, by simp, hall⟩
        · refine Or.inr ⟨p :: l₁, l₂, rfl, lt_trans hq hlt, ?_, h2⟩
          intro x hx
          rcases List.mem_cons.mp hx with rfl | hx
          · exact hlt
          · exact h1 x hx
    · obtain ⟨r, hr, hcase⟩ := ih q
      have hle : p.2 ≤ q.2 := Nat.le_of_not_lt hq
      refine ⟨r, ?_, ?_⟩
      · simp only [mostCommonFold, if_neg hq]
        exact hr
      · rcases hcase with ⟨rfl, hall⟩ | ⟨l₁, l₂, rfl, hlt, h1, h2⟩
        · refine Or.inl ⟨rfl, ?_⟩
          intro x hx
          rcases List.mem_cons.mp hx with rfl | hx
          · exact hle
          · exact hall x hx
        · refine Or.inr ⟨p :: l₁, l₂, rfl, hlt, ?_, h2⟩
          intro x hx
          rcases List.mem_cons.mp hx with rfl | hx
          · exact lt_of_le_of_lt hle hlt
          · exact h1 x hx

/-- Specification of `most_common(1)[0]`: the returned entry splits the tally
into a strictly-smaller prefix and a no-larger suffix — it is the first
entry, in insertion order, holding the maximal count. -/
theorem mostCommon1_spec (l : List (String × Nat)) (w : String) (c : Nat)
    (h : mostCommon1 l = some (w, c)) :
    ∃ l₁ l₂, l = l₁ ++ (w, c) :: l₂ ∧ (∀ p ∈ l₁, p.2 < c) ∧ (∀ p ∈ l₂, p.2 ≤ c) := by
  cases l with
  | nil => exact absurd h (by simp [mostCommon1, mostCommonFold])
  | cons x rest =>
    obtain ⟨r, hr, hcase⟩ := mostCommonFold_spec rest x
    rw [show mostCommon1 (x :: rest) = mostCommonFold (some x) rest from rfl, hr] at h
    obtain rfl := Option.some.inj h
    rcases hcase with ⟨hx, hall⟩ | ⟨l₁, l₂, rfl, hlt, h1, h2⟩
    · subst hx
      exact ⟨[], rest, rfl, by simp, hall⟩
    · refine ⟨x :: l₁, l₂, rfl, ?_, h2⟩
      intro p hp
      rcases List.mem_cons.mp hp with rfl | hp
      · exact hlt
      · exact h1 p hp

theorem mostCommon1_isSome (l : List (String × Nat)) (h : l ≠ []) :
    ∃ w c, mostCommon1 l = some (w, c) := by
  cases l with
  | nil => exact absurd rfl h
  | cons x rest =>
    obtain ⟨r, hr, _⟩ := mostCommonFold_spec rest x
    exact ⟨r.1, r.2, hr⟩

/-! ### Lemmas: ASCII case mapping -/

theorem isLower_iff (c : Char) : c.isLower = true ↔ 97 ≤ c.toNat ∧ c.toNat ≤ 122 := by
  simp only [Char.isLower, Bool.and_eq_true, decide_eq_true_eq, ge_iff_le, UInt32.le_def,
    BitVec.le_def]
  rfl

/-- The image of `str.upper` contains no lowercase ASCII letter. -/
theorem toUpper_not_isLower (c : Char) : (Char.toUpper c).isLower = false := by
  simp only [Char.toUpper]
  by_cases h : c.toNat ≥ 97 ∧ c.toNat ≤ 122
  · rw [if_pos h]
    generalize hg : c.toNat = n at h
    obtain ⟨h1, h2⟩ := h
    interval_cases n <;> decide
  · rw [if_neg h]
    rw [Bool.eq_false_iff]
    intro hl
    exact h ((isLower_iff c).mp hl)

theorem singleton_inj (c d : Char) (h : String.singleton c = String.singleton d) : c = d := by
  have := congrArg String.data h
  simpa [String.singleton] using this

/-! ### Lemmas: the stages of `synthesize` -/

/-- A string evidence element is safe when `json.loads` either fails on it or
yields a dict; dict and other elements are always safe.  `formatDoc` raises
exactly on unsafe elements. -/
def strEvidenceSafeB : Evidence → Bool
  | Evidence.str s =>
    match json_loads s with
    | none => true
    | some (Json.obj _) => true
    | some _ => false
  | Evidence.dict _ => true
  | Evidence.other => true

theorem formatDoc_ok_of_safe (e : Evidence) (h : strEvidenceSafeB e = true) :
    ∃ c, formatDoc e = Except.ok c := by
  cases e with
  | str s =>
    rw [strEvidenceSafeB] at h
    rw [formatDoc]
    cases hj : json_loads s with
    | none => exact ⟨s, rfl⟩
    | some j =>
      rw [hj] at h
      cases j with
      | obj fields => exact ⟨_, rfl⟩
      | null => exact Bool.noConfusion h
      | bool b => exact Bool.noConfusion h
      | num lit => exact Bool.noConfusion h
      | str s2 => exact Bool.noConfusion h
      | arr l => exact Bool.noConfusion h
  | dict fields => exact ⟨_, rfl⟩
  | other => exact ⟨_, rfl⟩

theorem formatEvidenceAux_ok (l : List Evidence) :
    ∀ (i : Nat) (acc : String), (∀ e ∈ l, strEvidenceSafeB e = true) →
      ∃ txt, formatEvidenceAux l i acc = Except.ok txt := by
  induction l with
  | nil => intro i acc _; exact ⟨acc, rfl⟩
  | cons e rest ih =>
    intro i acc h
    obtain ⟨c, hc⟩ := formatDoc_ok_of_safe e (h e (List.mem_cons_self _ _))
    rw [formatEvidenceAux, hc]
    exact ih _ _ (fun e2 he2 => h e2 (List.mem_cons_of_mem _ he2))

/-- Formatting a list of safe evidence elements never raises. -/
theorem formatEvidenceList_ok (l : List Evidence) (h : ∀ e ∈ l, strEvidenceSafeB e = true) :
    ∃ txt, formatEvidenceList l = Except.ok txt :=
  formatEvidenceAux_ok l 1 _ h

/-- For a nonnegative requested size, the clamped sample request is in range
and `random.sample` succeeds, returning the first `min(num_arbiters, 5)`
entries of the permutation. -/
theorem random_sample_ok (n : Int) (perm : List String) (hn : 0 ≤ n) :
    random_sample availableKeys (min n (availableKeys.length : Int)) perm =
      Except.ok (perm.take (min n (availableKeys.length : Int)).toNat) := by
  unfold random_sample
  rw [if_neg]
  push_neg
  exact ⟨le_min hn (Int.natCast_nonneg _), min_le_right _ _⟩

theorem synthesize_fe_error (q : String) (ch : List (String × String)) (ev : List Evidence)
    (n : Int) (perm : List String) (cb : String → CollabResult) (e : String)
    (hfe : formatEvidenceList ev = Except.error e) :
    synthesize q ch ev n perm cb = Except.error e := by
  unfold synthesize
  rw [hfe]

theorem synthesize_eq_tally (q : String) (ch : List (String × String)) (ev : List Evidence)
    (n : Int) (perm : List String) (cb : String → CollabResult) (txt : String)
    (sel : List String) (hfe : formatEvidenceList ev = Except.ok txt)
    (hrs : random_sample availableKeys (min n (availableKeys.length : Int)) perm =
      Except.ok sel) :
    synthesize q ch ev n perm cb = deliberateAndTally ch cb sel := by
  unfold synthesize
  rw [hfe, hrs]

theorem synthesize_ok_elim (q : String) (ch : List (String × String)) (ev : List Evidence)
    (n : Int) (perm : List String) (cb : String → CollabResult) (v : Verdict)
    (h : synthesize q ch ev n perm cb = Except.ok v) :
    ∃ txt sel, formatEvidenceList ev = Except.ok txt ∧
      random_sample availableKeys (min n (availableKeys.length : Int)) perm =
        Except.ok sel ∧
      deliberateAndTally ch cb sel = Except.ok v := by
  unfold synthesize at h
  cases hfe : formatEvidenceList ev with
  | error e => rw [hfe] at h; exact absurd h (by simp)
  | ok txt =>
    rw [hfe] at h
    cases hrs : random_sample availableKeys (min n (availableKeys.length : Int)) perm with
    | error e => rw [hrs] at h; exact absurd h (by simp)
    | ok sel =>
      rw [hrs] at h
      exact ⟨txt, sel, rfl, rfl, h⟩

/-- Case analysis on a verdict produced by the tally stage: either no votes
were cast and it is the no-votes verdict, or the majority branch ran. -/
theorem deliberateAndTally_ok_elim (ch : List (String × String)) (cb : String → CollabResult)
    (sel : List String) (v : Verdict) (h : deliberateAndTally ch cb sel = Except.ok v) :
    ((runJurors ch cb sel).1 = [] ∧
      v = ⟨none, 0, [], (runJurors ch cb sel).2⟩) ∨
    (∃ w c, (runJurors ch cb sel).1 ≠ [] ∧
      mostCommon1 (counter (runJurors ch cb sel).1) = some (w, c) ∧
      v = ⟨some w, round2 ((c : ℚ) / (((runJurors ch cb sel).1.length : ℚ))),
        counter (runJurors ch cb sel).1, (runJurors ch cb sel).2⟩) := by
  unfold deliberateAndTally at h
  by_cases he : (runJurors ch cb sel).1.isEmpty
  · rw [if_pos he] at h
    obtain rfl := Except.ok.inj h
    exact Or.inl ⟨List.isEmpty_iff.mp he, rfl⟩
  · rw [if_neg he] at h
    have hne : (runJurors ch cb sel).1 ≠ [] := fun hh => he (by rw [hh]; rfl)
    obtain ⟨w, c, hmc⟩ := mostCommon1_isSome _ (counter_ne_nil _ hne)
    rw [hmc] at h
    obtain rfl := Except.ok.inj h
    exact Or.inr ⟨w, c, hne, hmc, rfl⟩

/-- The tally stage never raises: `most_common(1)[0]` is only evaluated when
at least one vote was cast, and the counter of a nonempty vote list is
nonempty. -/
theorem deliberateAndTally_isOk (ch : List (String × String)) (cb : String → CollabResult)
    (sel : List String) : ∃ v, deliberateAndTally ch cb sel = Except.ok v := by
  unfold deliberateAndTally
  by_cases he : (runJurors ch cb sel).1.isEmpty
  · rw [if_pos he]
    exact ⟨_, rfl⟩
  · rw [if_neg he]
    have hne : (runJurors ch cb sel).1 ≠ [] := fun hh => he (by rw [hh]; rfl)
    obtain ⟨w, c, hmc⟩ := mostCommon1_isSome _ (counter_ne_nil _ hne)
    rw [hmc]
    exact ⟨_, rfl⟩

/-! ### The claims -/

/-- A four-key `choices` mapping with the usual bar-exam keys, used for the
concrete extraction examples. -/
def choicesABCD : List (String × String) :=
  [("A", "optA"), ("B", "optB"), ("C", "optC"), ("D", "optD")]

/-- C1: for every question, choices mapping, evidence list, jury size,
sampler randomness and collaborator, whenever `Jury.synthesize` returns a
verdict whose `final_verdict` is present, that `final_verdict` is a key of
the `choices` mapping. -/
theorem C1_final_verdict_is_choice_key (question : String) (choices : List (String × String))
    (evidence_list : List Evidence) (num_arbiters : Int) (perm : List String)
    (collab : String → CollabResult) (v : Verdict) (w : String)
    (h : synthesize question choices evidence_list num_arbiters perm collab = Except.ok v)
    (hw : v.final_verdict = some w) : w ∈ choices.map Prod.fst := by
  obtain ⟨txt, sel, hfe, hrs, hdt⟩ := synthesize_ok_elim _ _ _ _ _ _ _ h
  rcases deliberateAndTally_ok_elim _ _ _ _ hdt with ⟨hnil, rfl⟩ | ⟨w2, c, hne, hmc, rfl⟩
  · exact absurd hw (by simp)
  · obtain rfl := Option.some.inj hw
    obtain ⟨l₁, l₂, hsplit, _, _⟩ := mostCommon1_spec _ _ _ hmc
    have hmem : (w2, c) ∈ counter (runJurors choices collab sel).1 := by
      rw [hsplit]
      exact List.mem_append_right _ (List.mem_cons_self _ _)
    exact runJurors_votes_mem_keys choices collab sel w2 (mem_counter _ _ _ hmem)

/-- Witness for C1: a concrete one-juror run electing `"A"`. -/
theorem C1_witness : "A" ∈ ([("A", "ans")] : List (String × String)).map Prod.fst :=
  C1_final_verdict_is_choice_key "q" [("A", "ans")] [] 1 availableKeys
    (fun _ => CollabResult.ok "r" "A")
    ⟨some "A", round2 (((1 : Nat) : ℚ) / ((1 : Nat) : ℚ)), [("A", 1)],
      [⟨"The Strict Textualist", some "A", "r"⟩]⟩ "A"
    (by rfl) rfl

/-- C3 (amended): vote extraction in `Jury.synthesize` is the deterministic
trim, upper-case, first-valid-key-character rule applied to the raw vote; a
ballot with no valid character keeps its reasoning with an empty vote;
`"  b) because..."` extracts `"B"` and `"Not sure"` extracts nothing, but
`"I choose option D."` extracts `"C"` — the first valid key character is the
`C` of `CHOOSE` — not `"D"` as the spec example says. -/
theorem C3_vote_extraction_rule :
    (∀ (rawVote : String) (choices : List (String × String)) (v : String),
      extractVote rawVote choices = some v →
      ∃ c l₁ l₂, v = String.singleton c ∧
        (pyStrip rawVote.data).map Char.toUpper = l₁ ++ c :: l₂ ∧
        isKeyChar choices c = true ∧ ∀ x ∈ l₁, isKeyChar choices x = false) ∧
    (∀ (rawVote : String) (choices : List (String × String)),
      (∀ c ∈ (pyStrip rawVote.data).map Char.toUpper, isKeyChar choices c = false) →
      extractVote rawVote choices = none) ∧
    (∀ (choices : List (String × String)) (collab : String → CollabResult)
      (name : String) (rest : List String) (r rv : String),
      collab name = CollabResult.ok r rv → extractVote rv choices = none →
      (runJurors choices collab (name :: rest)).2 =
        ⟨name, none, r⟩ :: (runJurors choices collab rest).2 ∧
      (runJurors choices collab (name :: rest)).1 = (runJurors choices collab rest).1) ∧
    extractVote "  b) because...\n" choicesABCD = some "B" ∧
    extractVote "I choose option D." choicesABCD = some "C" ∧
    extractVote "Not sure" choicesABCD = none := by
  refine ⟨extractVote_eq_some, extractVote_eq_none, ?_, rfl, rfl, rfl⟩
  intro choices collab name rest r rv hcb hev
  rw [runJurors_cons_ok choices collab name rest r rv hcb, hev]
  exact ⟨rfl, rfl⟩

/-- C3 counterexample: the source heuristic takes the first valid key
character of the upper-cased raw vote, so `"I choose option D."` yields
`"C"`, not the `"D"` the spec example promises. -/
theorem C3_counterexample :
    extractVote "I choose option D." choicesABCD = some "C" ∧
    extractVote "I choose option D." choicesABCD ≠ some "D" := by
  exact ⟨rfl, by decide⟩

/-- C8: with no ReAct reasoning collaborator configured,
`AdvocateAgent.retrieve` returns the empty sequence for every hypothesis and
every `k` (and, being a total function of its inputs, never raises). -/
theorem C8_retrieve_without_agent (hypothesis : String) (k : Int) :
    retrieve none hypothesis k = [] := rfl

/-- C2: in every verdict returned with at least one non-empty vote, the final
verdict holds the maximal count and is the first key reaching it in ballot
(first-occurrence) order; the breakdown keys are listed in that order; the
breakdown counts sum to the number of non-empty ballots; and the confidence
is the winning count over the number of non-empty votes, rounded to two
decimal places. -/
theorem C2_majority_verdict (question : String) (choices : List (String × String))
    (evidence_list : List Evidence) (num_arbiters : Int) (perm : List String)
    (collab : String → CollabResult) (v : Verdict)
    (h : synthesize question choices evidence_list num_arbiters perm collab = Except.ok v)
    (hv : ∃ b ∈ v.juror_deliberations, b.vote ≠ none) :
    ∃ w c, v.final_verdict = some w ∧ (w, c) ∈ v.vote_breakdown ∧
      (∀ p ∈ v.vote_breakdown, p.2 ≤ c) ∧
      (∃ l₁ l₂, v.vote_breakdown = l₁ ++ (w, c) :: l₂ ∧ ∀ p ∈ l₁, p.2 < c) ∧
      v.vote_breakdown.map Prod.fst =
        firstOccs (v.juror_deliberations.filterMap Ballot.vote) ∧
      sumCounts v.vote_breakdown = (v.juror_deliberations.filterMap Ballot.vote).length ∧
      v.confidence =
        round2 ((c : ℚ) / ((v.juror_deliberations.filterMap Ballot.vote).length : ℚ)) := by
  obtain ⟨txt, sel, hfe, hrs, hdt⟩ := synthesize_ok_elim _ _ _ _ _ _ _ h
  rcases deliberateAndTally_ok_elim _ _ _ _ hdt with ⟨hnil, hveq⟩ | ⟨w, c, hne, hmc, hveq⟩
  · exfalso
    obtain ⟨b, hb, hbv⟩ := hv
    have hjd : v.juror_deliberations = (runJurors choices collab sel).2 := by rw [hveq]
    have hfm : (runJurors choices collab sel).2.filterMap Ballot.vote = [] := by
      rw [← runJurors_votes]
      exact hnil
    rw [hjd] at hb
    exact hbv (List.filterMap_eq_nil_iff.mp hfm b hb)
  · have hbd : v.vote_breakdown = counter (runJurors choices collab sel).1 := by rw [hveq]
    have hfv : v.final_verdict = some w := by rw [hveq]
    have hcf : v.confidence =
        round2 ((c : ℚ) / (((runJurors choices collab sel).1.length : ℚ))) := by rw [hveq]
    have hjd : v.juror_deliberations = (runJurors choices collab sel).2 := by rw [hveq]
    have hfm : v.juror_deliberations.filterMap Ballot.vote =
        (runJurors choices collab sel).1 := by
      rw [hjd, ← runJurors_votes]
    obtain ⟨l₁, l₂, hsplit, h1, h2⟩ := mostCommon1_spec _ _ _ hmc
    refine ⟨w, c, hfv, ?_, ?_, ?_, ?_, ?_, ?_⟩
    · rw [hbd, hsplit]
      exact List.mem_append_right _ (List.mem_cons_self _ _)
    · rw [hbd, hsplit]
      intro p hp
      rcases List.mem_append.mp hp with hp | hp
      · exact le_of_lt (h1 p hp)
      · rcases List.mem_cons.mp hp with rfl | hp
        · exact le_refl _
        · exact h2 p hp
    · rw [hbd]
      exact ⟨l₁, l₂, hsplit, h1⟩
    · rw [hbd, hfm, counter_fst]
    · rw [hbd, hfm, sumCounts_counter]
    · rw [hcf, hfm]

/-- The spec's end-to-end collaborator: ballots `["B", "B", "A"]` from the
first three sampled personas. -/
def collabBBA : String → CollabResult := fun name =>
  if name = "The Strict Textualist" then CollabResult.ok "r1" "B"
  else if name = "The Devil\x27s Advocate" then CollabResult.ok "r2" "B"
  else CollabResult.ok "r3" "A"

/-- The verdict of the `["B", "B", "A"]` run: `"B"` wins 2 of 3 with
confidence `round2 (2/3) = 0.67`. -/
def verdictBBA : Verdict :=
  ⟨some "B", round2 (((2 : Nat) : ℚ) / ((3 : Nat) : ℚ)), [("B", 2), ("A", 1)],
    [⟨"The Strict Textualist", some "B", "r1"⟩,
     ⟨"The Devil\x27s Advocate", some "B", "r2"⟩,
     ⟨"The Equity Advocate", some "A", "r3"⟩]⟩

/-- Witness for C2: the spec's end-to-end `["B", "B", "A"]` scenario. -/
theorem C2_witness :
    ∃ w c, verdictBBA.final_verdict = some w ∧ (w, c) ∈ verdictBBA.vote_breakdown ∧
      (∀ p ∈ verdictBBA.vote_breakdown, p.2 ≤ c) ∧
      (∃ l₁ l₂, verdictBBA.vote_breakdown = l₁ ++ (w, c) :: l₂ ∧ ∀ p ∈ l₁, p.2 < c) ∧
      verdictBBA.vote_breakdown.map Prod.fst =
        firstOccs (verdictBBA.juror_deliberations.filterMap Ballot.vote) ∧
      sumCounts verdictBBA.vote_breakdown =
        (verdictBBA.juror_deliberations.filterMap Ballot.vote).length ∧
      verdictBBA.confidence =
        round2 ((c : ℚ) / ((verdictBBA.juror_deliberations.filterMap Ballot.vote).length : ℚ)) :=
  C2_majority_verdict "q" choicesABCD [] 3 availableKeys collabBBA verdictBBA (by rfl)
    ⟨⟨"The Strict Textualist", some "B", "r1"⟩, by decide, by decide⟩

/-- C4: if zero jurors produce a valid vote, the verdict has an absent
`final_verdict`, confidence exactly 0.0, an empty `vote_breakdown`, and the
full deliberation transcript of the selected jury. -/
theorem C4_zero_votes_verdict (question : String) (choices : List (String × String))
    (evidence_list : List Evidence) (num_arbiters : Int) (perm : List String)
    (collab : String → CollabResult) (v : Verdict)
    (h : synthesize question choices evidence_list num_arbiters perm collab = Except.ok v)
    (hv : ∀ b ∈ v.juror_deliberations, b.vote = none) :
    v.final_verdict = none ∧ v.confidence = 0 ∧ v.vote_breakdown = [] ∧
    ∃ sel, random_sample availableKeys (min num_arbiters (availableKeys.length : Int)) perm =
        Except.ok sel ∧ v.juror_deliberations = (runJurors choices collab sel).2 := by
  obtain ⟨txt, sel, hfe, hrs, hdt⟩ := synthesize_ok_elim _ _ _ _ _ _ _ h
  rcases deliberateAndTally_ok_elim _ _ _ _ hdt with ⟨hnil, hveq⟩ | ⟨w, c, hne, hmc, hveq⟩
  · exact ⟨by rw [hveq], by rw [hveq], by rw [hveq], sel, hrs, by rw [hveq]⟩
  · exfalso
    have hjd : v.juror_deliberations = (runJurors choices collab sel).2 := by rw [hveq]
    have hv0 : (runJurors choices collab sel).1 = [] := by
      rw [runJurors_votes]
      exact List.filterMap_eq_nil_iff.mpr (fun b hb => hv b (by rw [hjd]; exact hb))
    exact hne hv0

/-- A collaborator whose raw vote `"Z"` never matches a choice key. -/
def collabZ : String → CollabResult := fun _ => CollabResult.ok "r" "Z"

/-- The no-votes verdict of a two-juror all-abstain run. -/
def verdictZ : Verdict :=
  ⟨none, 0, [],
    [⟨"The Strict Textualist", none, "r"⟩, ⟨"The Devil\x27s Advocate", none, "r"⟩]⟩

/-- Witness for C4: two jurors, both abstaining. -/
theorem C4_witness :
    verdictZ.final_verdict = none ∧ verdictZ.confidence = 0 ∧ verdictZ.vote_breakdown = [] ∧
    ∃ sel, random_sample availableKeys (min 2 (availableKeys.length : Int)) availableKeys =
        Except.ok sel ∧ verdictZ.juror_deliberations = (runJurors [("A", "x")] collabZ sel).2 :=
  C4_zero_votes_verdict "q" [("A", "x")] [] 2 availableKeys collabZ verdictZ (by rfl) (by decide)

/-- C5 (amended): the registry has exactly 5 personas and, for every
nonnegative `num_arbiters`, the sampler draws exactly `min(num_arbiters, 5)`
distinct persona names without replacement, and `synthesize` deliberates with
exactly that selection.  (For negative `num_arbiters`, `random.sample` raises
ValueError instead of selecting — see the counterexample.) -/
theorem C5_sample_distinct (num_arbiters : Int) (perm : List String)
    (hn : 0 ≤ num_arbiters) (hp : perm.Perm availableKeys) :
    availableKeys.length = 5 ∧
    ∃ sel, random_sample availableKeys (min num_arbiters (availableKeys.length : Int)) perm =
        Except.ok sel ∧
      (sel.length : Int) = min num_arbiters 5 ∧ sel.Nodup ∧
      (∀ x ∈ sel, x ∈ availableKeys) ∧
      ∀ (question : String) (choices : List (String × String))
        (evidence_list : List Evidence) (collab : String → CollabResult) (txt : String),
        formatEvidenceList evidence_list = Except.ok txt →
        synthesize question choices evidence_list num_arbiters perm collab =
          deliberateAndTally choices collab sel := by
  have hlen : availableKeys.length = 5 := rfl
  have hpl : perm.length = 5 := by rw [hp.length_eq, hlen]
  refine ⟨hlen, perm.take (min num_arbiters (availableKeys.length : Int)).toNat,
    random_sample_ok _ _ hn, ?_, ?_, ?_, ?_⟩
  · rw [List.length_take, hpl]
    have h5 : ((availableKeys.length : Int)) = 5 := rfl
    rw [h5]
    omega
  · exact (List.take_sublist _ _).nodup (hp.symm.nodup (by decide))
  · intro x hx
    exact hp.mem_iff.mp (List.mem_of_mem_take hx)
  · intro question choices evidence_list collab txt hfe
    exact synthesize_eq_tally _ _ _ _ _ _ _ _ hfe (random_sample_ok _ _ hn)

/-- Witness for C5: `num_arbiters = 3` with the identity permutation. -/
theorem C5_witness :
    availableKeys.length = 5 ∧
    ∃ sel, random_sample availableKeys (min 3 (availableKeys.length : Int)) availableKeys =
        Except.ok sel ∧
      (sel.length : Int) = min 3 5 ∧ sel.Nodup ∧
      (∀ x ∈ sel, x ∈ availableKeys) ∧
      ∀ (question : String) (choices : List (String × String))
        (evidence_list : List Evidence) (collab : String → CollabResult) (txt : String),
        formatEvidenceList evidence_list = Except.ok txt →
        synthesize question choices evidence_list 3 availableKeys collab =
          deliberateAndTally choices collab sel :=
  C5_sample_distinct 3 availableKeys (by decide) (List.Perm.refl _)

/-- C5 counterexample: at `num_arbiters = -1` the call does not select
`min(num_arbiters, 5)` names — `random.sample` raises ValueError and
`synthesize` propagates it, electing nothing. -/
theorem C5_counterexample :
    synthesize "q" [("A", "x")] [] (-1) availableKeys (fun _ => CollabResult.exn) =
      Except.error "Sample larger than population or is negative" := by rfl

/-- C6 (amended): evidence formatting never raises for raw strings that fail
JSON decoding or decode to a dict, for mappings, and for other values; a JSON
string `{"contents": "foo"}` and a mapping `{"text": "foo"}` both surface
`"foo"`.  A raw string decoding to a non-dict JSON value — including the
non-standard constants `json.loads` accepts by default, such as `"NaN"` —
raises an uncaught AttributeError (see also the counterexample). -/
theorem C6_evidence_formatting (evidence_list : List Evidence)
    (h : ∀ e ∈ evidence_list, strEvidenceSafeB e = true) :
    (∃ txt, formatEvidenceList evidence_list = Except.ok txt) ∧
    formatDoc (Evidence.str "\x7b\"contents\": \"foo\"\x7d") = Except.ok "foo" ∧
    formatDoc (Evidence.dict [("text", Json.str "foo")]) = Except.ok "foo" ∧
    formatDoc (Evidence.str "NaN") =
      Except.error "AttributeError: object has no attribute get" :=
  ⟨formatEvidenceList_ok _ h, rfl, rfl, rfl⟩

/-- Witness for C6: a mixed evidence list of a non-JSON string, a JSON object
string, a mapping and a non-string non-mapping value. -/
theorem C6_witness :
    (∃ txt, formatEvidenceList
      [Evidence.str "plain text", Evidence.str "\x7b\"contents\": \"foo\"\x7d",
       Evidence.dict [("text", Json.str "bar")], Evidence.other] = Except.ok txt) ∧
    formatDoc (Evidence.str "\x7b\"contents\": \"foo\"\x7d") = Except.ok "foo" ∧
    formatDoc (Evidence.dict [("text", Json.str "foo")]) = Except.ok "foo" ∧
    formatDoc (Evidence.str "NaN") =
      Except.error "AttributeError: object has no attribute get" :=
  C6_evidence_formatting
    [Evidence.str "plain text", Evidence.str "\x7b\"contents\": \"foo\"\x7d",
     Evidence.dict [("text", Json.str "bar")], Evidence.other] (by decide)

/-- C6 counterexample: the evidence string `"123"` JSON-decodes to a non-dict
value, `ev_json.get` raises an uncaught AttributeError, and `synthesize`
propagates it instead of formatting the element. -/
theorem C6_counterexample :
    synthesize "q" [("A", "x")] [Evidence.str "123"] 3 availableKeys
        (fun _ => CollabResult.exn) =
      Except.error "AttributeError: object has no attribute get" := by rfl

/-- C7: a collaborator exception for one persona is caught; the persona is
omitted from the ballots, the deliberation outcome is that of the surviving
personas, and `synthesize` still returns a verdict. -/
theorem C7_juror_failure_isolated (question : String) (choices : List (String × String))
    (evidence_list : List Evidence) (num_arbiters : Int) (perm : List String)
    (collab : String → CollabResult) (txt : String)
    (hfe : formatEvidenceList evidence_list = Except.ok txt) (hn : 0 ≤ num_arbiters) :
    ∃ sel, random_sample availableKeys (min num_arbiters (availableKeys.length : Int)) perm =
        Except.ok sel ∧
      synthesize question choices evidence_list num_arbiters perm collab =
        deliberateAndTally choices collab sel ∧
      runJurors choices collab sel =
        runJurors choices collab (sel.filter (fun nm => collabOkB (collab nm))) ∧
      ∃ v, synthesize question choices evidence_list num_arbiters perm collab =
        Except.ok v := by
  obtain ⟨v, hv⟩ := deliberateAndTally_isOk choices collab
    (perm.take (min num_arbiters (availableKeys.length : Int)).toNat)
  refine ⟨_, random_sample_ok _ _ hn,
    synthesize_eq_tally _ _ _ _ _ _ _ _ hfe (random_sample_ok _ _ hn),
    runJurors_filter _ _ _, v, ?_⟩
  rw [synthesize_eq_tally _ _ _ _ _ _ _ _ hfe (random_sample_ok _ _ hn)]
  exact hv

/-- A collaborator that raises for the first sampled persona and answers
`"A"` for the others. -/
def collabExn1 : String → CollabResult := fun name =>
  if name = "The Strict Textualist" then CollabResult.exn else CollabResult.ok "r" "A"

/-- Witness for C7: a two-juror run whose first juror raises. -/
theorem C7_witness :
    ∃ sel, random_sample availableKeys (min 2 (availableKeys.length : Int)) availableKeys =
        Except.ok sel ∧
      synthesize "q" [("A", "x")] [] 2 availableKeys collabExn1 =
        deliberateAndTally [("A", "x")] collabExn1 sel ∧
      runJurors [("A", "x")] collabExn1 sel =
        runJurors [("A", "x")] collabExn1 (sel.filter (fun nm => collabOkB (collabExn1 nm))) ∧
      ∃ v, synthesize "q" [("A", "x")] [] 2 availableKeys collabExn1 = Except.ok v :=
  C7_juror_failure_isolated "q" [("A", "x")] [] 2 availableKeys collabExn1 "\n Evidence - "
    (by rfl) (by decide)

/-- C9 (amended): for nonnegative `k`, retrieval through the ReAct agent
returns at most `k` items; a string evidence block is split into passages on
newline boundaries with blank lines discarded; and every returned item
carries the passage text, the fixed source tag and score 1.0.  (For negative
`k`, the Python slice `passages[:k]` drops items from the end instead of
bounding the count — see the counterexample.) -/
theorem C9_retrieve_bounded (agent : String → ReactResult) (hypothesis : String) (k : Int)
    (hk : 0 ≤ k) :
    ((retrieve (some agent) hypothesis k).length : Int) ≤ k ∧
    (∀ item ∈ retrieve (some agent) hypothesis k,
      item.source = "dspy_react" ∧ item.score = 1) ∧
    (∀ s, agent hypothesis = ReactResult.ok (EvidenceText.str s) →
      retrieve (some agent) hypothesis k =
        ((splitPassages s).take k.toNat).map (fun p => ⟨p, "dspy_react", 1⟩)) ∧
    retrieve (some (fun _ => ReactResult.ok (EvidenceText.str "a\n \nb\nc"))) "h" 3 =
      [⟨"a", "dspy_react", 1⟩, ⟨"b", "dspy_react", 1⟩, ⟨"c", "dspy_react", 1⟩] := by
  have hret : ∀ et, agent hypothesis = ReactResult.ok et →
      retrieve (some agent) hypothesis k =
        (pySliceTo (passagesOf et) k).map (fun p => ⟨p, "dspy_react", 1⟩) := by
    intro et hr
    simp [retrieve, hr]
  refine ⟨?_, ?_, ?_, rfl⟩
  · cases hr : agent hypothesis with
    | exn =>
      have : retrieve (some agent) hypothesis k = [] := by simp [retrieve, hr]
      rw [this]
      simpa using hk
    | ok et =>
      rw [hret et hr, List.length_map]
      rw [pySliceTo, if_pos hk, List.length_take]
      omega
  · intro item him
    cases hr : agent hypothesis with
    | exn =>
      have : retrieve (some agent) hypothesis k = [] := by simp [retrieve, hr]
      rw [this] at him
      exact absurd him (List.not_mem_nil _)
    | ok et =>
      rw [hret et hr] at him
      obtain ⟨p, hp, rfl⟩ := List.mem_map.mp him
      exact ⟨rfl, rfl⟩
  · intro s hs
    rw [hret _ hs]
    rw [pySliceTo, if_pos hk]
    rfl

/-- Witness for C9: a two-passage block truncated to `k = 1`. -/
theorem C9_witness :
    ((retrieve (some (fun _ => ReactResult.ok (EvidenceText.str "x\ny"))) "h" 1).length : Int)
        ≤ 1 ∧
    (∀ item ∈ retrieve (some (fun _ => ReactResult.ok (EvidenceText.str "x\ny"))) "h" 1,
      item.source = "dspy_react" ∧ item.score = 1) ∧
    (∀ s, (fun (_ : String) => ReactResult.ok (EvidenceText.str "x\ny")) "h" =
        ReactResult.ok (EvidenceText.str s) →
      retrieve (some (fun _ => ReactResult.ok (EvidenceText.str "x\ny"))) "h" 1 =
        ((splitPassages s).take (1 : Int).toNat).map (fun p => ⟨p, "dspy_react", 1⟩)) ∧
    retrieve (some (fun _ => ReactResult.ok (EvidenceText.str "a\n \nb\nc"))) "h" 3 =
      [⟨"a", "dspy_react", 1⟩, ⟨"b", "dspy_react", 1⟩, ⟨"c", "dspy_react", 1⟩] :=
  C9_retrieve_bounded (fun _ => ReactResult.ok (EvidenceText.str "x\ny")) "h" 1 (by decide)

/-- C9 counterexample: at `k = -1` a three-passage retrieval returns two
items, so the returned list does not contain at most `k` items. -/
theorem C9_counterexample :
    ¬ (((retrieve (some (fun _ => ReactResult.ok (EvidenceText.str "a\nb\nc"))) "h"
        (-1)).length : Int) ≤ -1) := by decide

/-- C10: an extracted vote consists of upper-cased characters and so never
contains a lowercase ASCII letter; consequently a verdict key equal to a
single lowercase letter is never elected, and when every choice key is a
single lowercase letter every juror abstains and `synthesize` returns the
no-votes verdict. -/
theorem C10_no_lowercase_elected :
    (∀ (rawVote : String) (choices : List (String × String)) (v : String),
      extractVote rawVote choices = some v → ∀ c ∈ v.data, c.isLower = false) ∧
    (∀ (question : String) (choices : List (String × String))
      (evidence_list : List Evidence) (num_arbiters : Int) (perm : List String)
      (collab : String → CollabResult) (v : Verdict) (w : String) (c : Char),
      synthesize question choices evidence_list num_arbiters perm collab = Except.ok v →
      v.final_verdict = some w → w = String.singleton c → c.isLower = false) ∧
    (∀ (question : String) (choices : List (String × String))
      (evidence_list : List Evidence) (num_arbiters : Int) (perm : List String)
      (collab : String → CollabResult) (v : Verdict),
      (∀ kv ∈ choices, ∃ c, kv.1 = String.singleton c ∧ c.isLower = true) →
      synthesize question choices evidence_list num_arbiters perm collab = Except.ok v →
      v.final_verdict = none ∧ v.confidence = 0 ∧ v.vote_breakdown = []) := by
  have extract_upper : ∀ (rawVote : String) (choices : List (String × String)) (v : String),
      extractVote rawVote choices = some v →
      ∃ c1, v = String.singleton (Char.toUpper c1) := by
    intro rawVote choices v hv
    obtain ⟨c0, l₁, l₂, hvv, heq, hkey, _⟩ := extractVote_eq_some _ _ _ hv
    have hmem : c0 ∈ (pyStrip rawVote.data).map Char.toUpper := by
      rw [heq]
      exact List.mem_append_right _ (List.mem_cons_self _ _)
    obtain ⟨c1, _, hc1⟩ := List.mem_map.mp hmem
    exact ⟨c1, by rw [hvv, hc1]⟩
  refine ⟨?_, ?_, ?_⟩
  · intro rawVote choices v hv c hc
    obtain ⟨c1, rfl⟩ := extract_upper _ _ _ hv
    have hcc : c = Char.toUpper c1 := by simpa [String.singleton] using hc
    rw [hcc]
    exact toUpper_not_isLower c1
  · intro question choices evidence_list num_arbiters perm collab v w c h hw hwc
    obtain ⟨txt, sel, hfe, hrs, hdt⟩ := synthesize_ok_elim _ _ _ _ _ _ _ h
    rcases deliberateAndTally_ok_elim _ _ _ _ hdt with ⟨hnil, hveq⟩ | ⟨w2, c2, hne, hmc, hveq⟩
    · rw [hveq] at hw
      exact absurd hw (by simp)
    · rw [hveq] at hw
      have hww : w2 = w := by simpa using hw
      obtain ⟨l₁, l₂, hsplit, _, _⟩ := mostCommon1_spec _ _ _ hmc
      have hmemc : (w2, c2) ∈ counter (runJurors choices collab sel).1 := by
        rw [hsplit]
        exact List.mem_append_right _ (List.mem_cons_self _ _)
      obtain ⟨rv, hrv⟩ := runJurors_votes_from_extract _ _ _ _ (mem_counter _ _ _ hmemc)
      obtain ⟨c1, hvv⟩ := extract_upper _ _ _ hrv
      have hsing : String.singleton c = String.singleton (Char.toUpper c1) := by
        rw [← hwc, ← hww, hvv]
      rw [singleton_inj _ _ hsing]
      exact toUpper_not_isLower c1
  · intro question choices evidence_list num_arbiters perm collab v hlow h
    have hnone : ∀ rv, extractVote rv choices = none := by
      intro rv
      apply extractVote_eq_none
      intro c hc
      rw [Bool.eq_false_iff]
      intro hkey
      rw [isKeyChar] at hkey
      obtain ⟨kv, hkv, hbeq⟩ := List.any_eq_true.mp hkey
      have hk1 : kv.1 = String.singleton c := eq_of_beq hbeq
      obtain ⟨cl, hcl, hcll⟩ := hlow kv hkv
      have hclc : cl = c := singleton_inj _ _ (hcl.symm.trans hk1)
      obtain ⟨c1, _, hc1⟩ := List.mem_map.mp hc
      rw [hclc, ← hc1, toUpper_not_isLower] at hcll
      exact Bool.noConfusion hcll
    obtain ⟨txt, sel, hfe, hrs, hdt⟩ := synthesize_ok_elim _ _ _ _ _ _ _ h
    have hv0 : (runJurors choices collab sel).1 = [] :=
      runJurors_votes_nil _ _ _ hnone
    rcases deliberateAndTally_ok_elim _ _ _ _ hdt with ⟨hnil, hveq⟩ | ⟨w, c, hne, hmc, hveq⟩
    · exact ⟨by rw [hveq], by rw [hveq], by rw [hveq]⟩
    · exact absurd hv0 hne

end Case
